import Mathlib

/-!
# Verification of the EIP-712 signature tester core

Shallow embedding of the repository's `EIP712Signer` class
(`eip712-signer.js`: `generateDeadline`, `checkFieldOrder`, `signTypedData`,
`signPermit`) and of the manual EIP-712 hash computations performed by the
repository's debug scripts (`debug-eip712.js` / `recover-test.js`), together
with theorems settling the specification's claims about them.

JavaScript objects are modelled as insertion-ordered association lists;
JavaScript property assignment (`o[k] = v`) keeps the position of an existing
key and appends a fresh one.  The `ethers` library, which is external to the
repository, is modelled as a record of abstract operations where only its
interface matters, and concretely (keccak-256, `solidityPacked`) where the
repository's own scripts re-implement the hashing pipeline by hand.
-/

set_option maxRecDepth 4000

namespace EIP712

/-- A JavaScript value as it appears in an EIP-712 message tree:
string, number, boolean, nested object (insertion-ordered) or array. -/
inductive JValue where
  | str : String → JValue
  | num : Nat → JValue
  | bool : Bool → JValue
  | obj : List (String × JValue) → JValue
  | arr : List JValue → JValue

/-- A message value tree: a JavaScript object in insertion order. -/
abbrev Message := List (String × JValue)

/-- One entry of a type definition: `{ name, type }` in the source. -/
structure FieldDef where
  name : String
  type : String

/-- The `types` mapping: type name → ordered field list, in insertion order. -/
abbrev TypesMap := List (String × List FieldDef)

/-- An EIP-712 domain object with the four fields the repository uses. -/
structure DomainJS where
  name : String
  version : String
  chainId : Nat
  verifyingContract : String

/-- The wallet held by the signer; `address` is the address ethers derives
from the private key at construction time. -/
structure Wallet where
  address : String

/-- The result object returned by `signTypedData` (source lines 116-122). -/
structure SigningResult where
  signature : String
  deadline : Nat
  recoveredAddress : String
  messageWithDeadline : Message
  signer : String

/-- The operations of the external `ethers` library used by the signer,
kept abstract: signing, typed-data recovery and address checksumming.
Fallible operations return `Except` (a JavaScript throw). -/
structure EthersApi where
  wSignTypedData : Wallet → DomainJS → TypesMap → Message → Except String String
  verifyTypedData : DomainJS → TypesMap → Message → String → Except String String
  getAddress : String → Except String String

/-- JavaScript property read `m[k]` on an object: first (unique) key wins. -/
def getKey : List (String × JValue) → String → Option JValue
  | [], _ => none
  | (k', v) :: rest, k => if k' == k then some v else getKey rest k

/-- JavaScript property assignment `m[k] = v`: an existing key keeps its
position and gets the new value, a fresh key is appended at the end. -/
def setKey : List (String × JValue) → String → JValue → List (String × JValue)
  | [], k, v => [(k, v)]
  | (k', v') :: rest, k, v =>
      if k' == k then (k, v) :: rest else (k', v') :: setKey rest k v

/-- `Object.keys` of a message. -/
def keysOf (m : Message) : List String := m.map Prod.fst

/-- Read `types[k]` in the types mapping. -/
def assocFind : TypesMap → String → Option (List FieldDef)
  | [], _ => none
  | (k', v) :: rest, k => if k' == k then some v else assocFind rest k

/-- `Object.keys(types).find(key => key !== 'EIP712Domain')` (source line 36):
the primary type is the first key that is not `EIP712Domain`. -/
def primaryKeysFind (types : TypesMap) : Option String :=
  (types.map Prod.fst).find? (fun k => k != "EIP712Domain")

/-- The reorder loop of `checkFieldOrder` (source lines 46-51): walk the
declared field names and copy each field present in the message, by
JavaScript property assignment into an initially empty object. -/
def foldProject (names : List String) (message : Message) (acc : Message) : Message :=
  match names with
  | [] => acc
  | n :: rest =>
      match getKey message n with
      | some v => foldProject rest message (setKey acc n v)
      | none => foldProject rest message acc

/-- The record returned by `checkFieldOrder`. -/
structure OrderCheck where
  isOrdered : Bool
  typeOrder : List String
  messageOrder : List String
  reorderedMessage : Message
  primaryType : Option String

/-- `checkFieldOrder(types, message)` (source lines 34-60). -/
def checkFieldOrder (types : TypesMap) (message : Message) : OrderCheck :=
  match primaryKeysFind types with
  | none =>
      { isOrdered := true, typeOrder := [], messageOrder := [],
        reorderedMessage := message, primaryType := none }
  | some pn =>
      let typeOrder := ((assocFind types pn).getD []).map (fun f => f.name)
      let messageOrder := keysOf message
      let isOrdered := typeOrder == messageOrder
      let reorderedMessage := foldProject typeOrder message []
      { isOrdered := isOrdered, typeOrder := typeOrder,
        messageOrder := messageOrder, reorderedMessage := reorderedMessage,
        primaryType := some pn }

/-- `generateDeadline(durationSeconds)` (source lines 24-26):
`Math.floor(Date.now() / 1000) + durationSeconds` with `Date.now()` in
milliseconds passed in explicitly. -/
def generateDeadline (dateNowMs durationSeconds : Nat) : Nat :=
  dateNowMs / 1000 + durationSeconds

/-- The deadline actually used by `signTypedData` (source lines 96-99):
`if (!deadline) deadline = this.generateDeadline()`.  A missing (`null`)
or zero (falsy) argument is replaced by a fresh one-hour deadline. -/
def effectiveDeadline (dateNowMs : Nat) : Option Nat → Nat
  | none => generateDeadline dateNowMs 3600
  | some d => if d == 0 then generateDeadline dateNowMs 3600 else d

/-- The value tree used for signing after the field-order check (source
lines 73-94): the caller's tree when ordered, else the reordered tree. -/
def reconcileValue (types : TypesMap) (value : Message) : Message :=
  let orderCheck := checkFieldOrder types value
  if orderCheck.isOrdered then value else orderCheck.reorderedMessage

/-- Deadline injection (source lines 101-108): re-find the primary type and,
when it declares a field named `deadline`, assign the effective deadline
into a copy of the value tree. -/
def addDeadline (types : TypesMap) (value : Message) (dl : Nat) : Message :=
  match primaryKeysFind types with
  | none => value
  | some pn =>
      match assocFind types pn with
      | none => value
      | some messageType =>
          if messageType.any (fun f => f.name == "deadline")
          then setKey value "deadline" (JValue.num dl)
          else value

/-- The tail of `signTypedData` (source lines 110-125): sign the final tree,
recover an address from the signature, and build the result object; any
ethers throw is re-thrown with the `Failed to sign typed data:` prefix. -/
def finishSign (eth : EthersApi) (w : Wallet) (domain : DomainJS)
    (types : TypesMap) (messageWithDeadline : Message) (dl : Nat) :
    Except String SigningResult :=
  match eth.wSignTypedData w domain types messageWithDeadline with
  | .error e => .error ("Failed to sign typed data: " ++ e)
  | .ok signature =>
      match eth.verifyTypedData domain types messageWithDeadline signature with
      | .error e => .error ("Failed to sign typed data: " ++ e)
      | .ok recoveredAddress =>
          .ok { signature := signature, deadline := dl,
                recoveredAddress := recoveredAddress,
                messageWithDeadline := messageWithDeadline,
                signer := w.address }

/-- `signTypedData(domain, types, value, deadline = null)`
(source lines 70-126), with `Date.now()` an explicit input. -/
def signTypedDataJS (eth : EthersApi) (w : Wallet) (dateNowMs : Nat)
    (domain : DomainJS) (types : TypesMap) (value : Message)
    (deadline : Option Nat) : Except String SigningResult :=
  let value1 := reconcileValue types value
  let dl := effectiveDeadline dateNowMs deadline
  let messageWithDeadline := addDeadline types value1 dl
  finishSign eth w domain types messageWithDeadline dl

/-- The permit parameter object taken by `signPermit` (source lines 134-144);
`Option` marks the properties whose absence or falsiness the source tests. -/
structure PermitData where
  tokenName : String
  tokenVersion : Option String
  chainId : Nat
  verifyingContract : String
  owner : Option String
  spender : String
  value : JValue
  nonce : JValue
  deadline : Option Nat

/-- The fixed five-field `Permit` type built by `signPermit`
(source lines 153-161). -/
def permitTypes : TypesMap :=
  [("Permit",
    [{ name := "owner", type := "address" },
     { name := "spender", type := "address" },
     { name := "value", type := "uint256" },
     { name := "nonce", type := "uint256" },
     { name := "deadline", type := "uint256" }])]

/-- The `owner` entry of the permit message (source line 164):
`owner ? ethers.getAddress(owner) : this.wallet.address`, where a missing,
null or empty owner is falsy and yields the wallet's own address. -/
def resolveOwner (eth : EthersApi) (w : Wallet) : Option String → Except String String
  | some o => if o == "" then Except.ok w.address else eth.getAddress o
  | none => Except.ok w.address

/-- `signPermit(permitData)` (source lines 133-172): build the fixed ERC-20
Permit domain, types and message (`deadline || generateDeadline()` has the
same falsy semantics as `effectiveDeadline`) and delegate to
`signTypedData`, passing `message.deadline` as the explicit deadline. -/
def signPermit (eth : EthersApi) (w : Wallet) (dateNowMs : Nat)
    (pd : PermitData) : Except String SigningResult :=
  let tokenVersion := pd.tokenVersion.getD "1"
  match eth.getAddress pd.verifyingContract with
  | .error e => .error e
  | .ok vc =>
      let domain : DomainJS :=
        { name := pd.tokenName, version := tokenVersion,
          chainId := pd.chainId, verifyingContract := vc }
      match resolveOwner eth w pd.owner with
      | .error e => .error e
      | .ok ownerAddr =>
          match eth.getAddress pd.spender with
          | .error e => .error e
          | .ok spenderAddr =>
              let msgDeadline := effectiveDeadline dateNowMs pd.deadline
              let message : Message :=
                [("owner", JValue.str ownerAddr),
                 ("spender", JValue.str spenderAddr),
                 ("value", pd.value),
                 ("nonce", pd.nonce),
                 ("deadline", JValue.num msgDeadline)]
              signTypedDataJS eth w dateNowMs domain permitTypes message
                (some msgDeadline)

/-!
## The manual hashing pipeline of the debug scripts

The repository's debug scripts (`debug-eip712.js`, `recover-test.js` and the
breakdown script) recompute the EIP-712 digest by hand with
`ethers.keccak256` and `ethers.solidityPacked`.  This section embeds that
pipeline: a concrete Keccak-256 over byte lists (64-bit lanes as `Nat`
reduced mod `2 ^ 64`) and the exact packed concatenations the scripts build.
-/

/-- 64-bit rotate left, on a `Nat` below `2 ^ 64`. -/
def rotl64 (x n : Nat) : Nat :=
  ((x <<< n) ||| (x >>> (64 - n))) % (2 ^ 64)

/-- The 64-bit all-ones mask. -/
def mask64 : Nat := 2 ^ 64 - 1

/-- Read a 64-bit lane from up to eight little-endian bytes. -/
def bytesToLane (bs : List Nat) : Nat :=
  bs.foldr (fun b acc => b + 256 * acc) 0

/-- A Keccak-f[1600] state: 25 lanes, flat index `x + 5 * y`. -/
structure KState where
  s0 : Nat
  s1 : Nat
  s2 : Nat
  s3 : Nat
  s4 : Nat
  s5 : Nat
  s6 : Nat
  s7 : Nat
  s8 : Nat
  s9 : Nat
  s10 : Nat
  s11 : Nat
  s12 : Nat
  s13 : Nat
  s14 : Nat
  s15 : Nat
  s16 : Nat
  s17 : Nat
  s18 : Nat
  s19 : Nat
  s20 : Nat
  s21 : Nat
  s22 : Nat
  s23 : Nat
  s24 : Nat

/-- Keccak θ step. -/
def thetaStep (s : KState) : KState :=
  let c0 := s.s0 ^^^ s.s5 ^^^ s.s10 ^^^ s.s15 ^^^ s.s20
  let c1 := s.s1 ^^^ s.s6 ^^^ s.s11 ^^^ s.s16 ^^^ s.s21
  let c2 := s.s2 ^^^ s.s7 ^^^ s.s12 ^^^ s.s17 ^^^ s.s22
  let c3 := s.s3 ^^^ s.s8 ^^^ s.s13 ^^^ s.s18 ^^^ s.s23
  let c4 := s.s4 ^^^ s.s9 ^^^ s.s14 ^^^ s.s19 ^^^ s.s24
  let d0 := c4 ^^^ rotl64 c1 1
  let d1 := c0 ^^^ rotl64 c2 1
  let d2 := c1 ^^^ rotl64 c3 1
  let d3 := c2 ^^^ rotl64 c4 1
  let d4 := c3 ^^^ rotl64 c0 1
  ⟨s.s0 ^^^ d0, s.s1 ^^^ d1, s.s2 ^^^ d2, s.s3 ^^^ d3, s.s4 ^^^ d4, s.s5 ^^^ d0, s.s6 ^^^ d1, s.s7 ^^^ d2, s.s8 ^^^ d3, s.s9 ^^^ d4, s.s10 ^^^ d0, s.s11 ^^^ d1, s.s12 ^^^ d2, s.s13 ^^^ d3, s.s14 ^^^ d4, s.s15 ^^^ d0, s.s16 ^^^ d1, s.s17 ^^^ d2, s.s18 ^^^ d3, s.s19 ^^^ d4, s.s20 ^^^ d0, s.s21 ^^^ d1, s.s22 ^^^ d2, s.s23 ^^^ d3, s.s24 ^^^ d4⟩

/-- Keccak ρ and π steps combined: output lane `(X, Y)` is input lane
`(X + 3Y mod 5, X)` rotated by its offset. -/
def rhoPiStep (s : KState) : KState :=
  ⟨s.s0,
   rotl64 s.s6 44,
   rotl64 s.s12 43,
   rotl64 s.s18 21,
   rotl64 s.s24 14,
   rotl64 s.s3 28,
   rotl64 s.s9 20,
   rotl64 s.s10 3,
   rotl64 s.s16 45,
   rotl64 s.s22 61,
   rotl64 s.s1 1,
   rotl64 s.s7 6,
   rotl64 s.s13 25,
   rotl64 s.s19 8,
   rotl64 s.s20 18,
   rotl64 s.s4 27,
   rotl64 s.s5 36,
   rotl64 s.s11 10,
   rotl64 s.s17 15,
   rotl64 s.s23 56,
   rotl64 s.s2 62,
   rotl64 s.s8 55,
   rotl64 s.s14 39,
   rotl64 s.s15 41,
   rotl64 s.s21 2⟩

/-- Keccak χ step (`~b` is xor against the 64-bit mask). -/
def chiStep (s : KState) : KState :=
  ⟨s.s0 ^^^ ((s.s1 ^^^ mask64) &&& s.s2),
   s.s1 ^^^ ((s.s2 ^^^ mask64) &&& s.s3),
   s.s2 ^^^ ((s.s3 ^^^ mask64) &&& s.s4),
   s.s3 ^^^ ((s.s4 ^^^ mask64) &&& s.s0),
   s.s4 ^^^ ((s.s0 ^^^ mask64) &&& s.s1),
   s.s5 ^^^ ((s.s6 ^^^ mask64) &&& s.s7),
   s.s6 ^^^ ((s.s7 ^^^ mask64) &&& s.s8),
   s.s7 ^^^ ((s.s8 ^^^ mask64) &&& s.s9),
   s.s8 ^^^ ((s.s9 ^^^ mask64) &&& s.s5),
   s.s9 ^^^ ((s.s5 ^^^ mask64) &&& s.s6),
   s.s10 ^^^ ((s.s11 ^^^ mask64) &&& s.s12),
   s.s11 ^^^ ((s.s12 ^^^ mask64) &&& s.s13),
   s.s12 ^^^ ((s.s13 ^^^ mask64) &&& s.s14),
   s.s13 ^^^ ((s.s14 ^^^ mask64) &&& s.s10),
   s.s14 ^^^ ((s.s10 ^^^ mask64) &&& s.s11),
   s.s15 ^^^ ((s.s16 ^^^ mask64) &&& s.s17),
   s.s16 ^^^ ((s.s17 ^^^ mask64) &&& s.s18),
   s.s17 ^^^ ((s.s18 ^^^ mask64) &&& s.s19),
   s.s18 ^^^ ((s.s19 ^^^ mask64) &&& s.s15),
   s.s19 ^^^ ((s.s15 ^^^ mask64) &&& s.s16),
   s.s20 ^^^ ((s.s21 ^^^ mask64) &&& s.s22),
   s.s21 ^^^ ((s.s22 ^^^ mask64) &&& s.s23),
   s.s22 ^^^ ((s.s23 ^^^ mask64) &&& s.s24),
   s.s23 ^^^ ((s.s24 ^^^ mask64) &&& s.s20),
   s.s24 ^^^ ((s.s20 ^^^ mask64) &&& s.s21)⟩

/-- Keccak ι step: xor the round constant into lane 0. -/
def iotaStep (s : KState) (rc : Nat) : KState :=
  ⟨s.s0 ^^^ rc, s.s1, s.s2, s.s3, s.s4, s.s5, s.s6, s.s7, s.s8, s.s9, s.s10, s.s11, s.s12, s.s13, s.s14, s.s15, s.s16, s.s17, s.s18, s.s19, s.s20, s.s21, s.s22, s.s23, s.s24⟩

/-- Xor a 136-byte rate block (17 little-endian lanes) into the state. -/
def xorBlock (s : KState) (block : List Nat) : KState :=
  ⟨s.s0 ^^^ bytesToLane ((block.drop 0).take 8),
   s.s1 ^^^ bytesToLane ((block.drop 8).take 8),
   s.s2 ^^^ bytesToLane ((block.drop 16).take 8),
   s.s3 ^^^ bytesToLane ((block.drop 24).take 8),
   s.s4 ^^^ bytesToLane ((block.drop 32).take 8),
   s.s5 ^^^ bytesToLane ((block.drop 40).take 8),
   s.s6 ^^^ bytesToLane ((block.drop 48).take 8),
   s.s7 ^^^ bytesToLane ((block.drop 56).take 8),
   s.s8 ^^^ bytesToLane ((block.drop 64).take 8),
   s.s9 ^^^ bytesToLane ((block.drop 72).take 8),
   s.s10 ^^^ bytesToLane ((block.drop 80).take 8),
   s.s11 ^^^ bytesToLane ((block.drop 88).take 8),
   s.s12 ^^^ bytesToLane ((block.drop 96).take 8),
   s.s13 ^^^ bytesToLane ((block.drop 104).take 8),
   s.s14 ^^^ bytesToLane ((block.drop 112).take 8),
   s.s15 ^^^ bytesToLane ((block.drop 120).take 8),
   s.s16 ^^^ bytesToLane ((block.drop 128).take 8),
   s.s17,
   s.s18,
   s.s19,
   s.s20,
   s.s21,
   s.s22,
   s.s23,
   s.s24⟩

/-- The 24 Keccak-f[1600] round constants. -/
def keccakRC : List Nat :=
  [0x0000000000000001, 0x0000000000008082, 0x800000000000808a, 0x8000000080008000,
   0x000000000000808b, 0x0000000080000001, 0x8000000080008081, 0x8000000000008009,
   0x000000000000008a, 0x0000000000000088, 0x0000000080008009, 0x000000008000000a,
   0x000000008000808b, 0x800000000000008b, 0x8000000000008089, 0x8000000000008003,
   0x8000000000008002, 0x8000000000000080, 0x000000000000800a, 0x800000008000000a,
   0x8000000080008081, 0x8000000000008080, 0x0000000080000001, 0x8000000080008008]

/-- One Keccak-f round: θ, ρ, π, χ, then ι with the round constant. -/
def keccakRound (s : KState) (rc : Nat) : KState :=
  iotaStep (chiStep (rhoPiStep (thetaStep s))) rc

/-- The full Keccak-f[1600] permutation. -/
def keccakF (s : KState) : KState :=
  keccakRC.foldl keccakRound s

/-- Write a 64-bit lane as eight little-endian bytes. -/
def laneToBytes (n : Nat) : List Nat :=
  [n % 256, (n >>> 8) % 256, (n >>> 16) % 256, (n >>> 24) % 256,
   (n >>> 32) % 256, (n >>> 40) % 256, (n >>> 48) % 256, (n >>> 56) % 256]

/-- Absorb one 136-byte rate block into the state and permute. -/
def absorbBlock (s : KState) (block : List Nat) : KState :=
  keccakF (xorBlock s block)

/-- Original Keccak `pad10*1` padding (first pad byte `0x01`, last `0x80`)
for rate 136, as used by Ethereum's keccak256. -/
def keccakPad (len : Nat) : List Nat :=
  let q := 136 - len % 136
  if q == 1 then [0x81] else 0x01 :: (List.replicate (q - 2) 0 ++ [0x80])

/-- Split a byte list into 136-byte blocks; the fuel (initially the length)
keeps the recursion structural so the kernel can evaluate it. -/
def toBlocksAux : Nat → List Nat → List (List Nat)
  | 0, _ => []
  | _, [] => []
  | fuel + 1, b :: rest =>
      ((b :: rest).take 136) :: toBlocksAux fuel ((b :: rest).drop 136)

/-- Split a padded byte list into 136-byte rate blocks. -/
def toBlocks (l : List Nat) : List (List Nat) :=
  toBlocksAux l.length l

/-- The all-zero initial sponge state. -/
def kInit : KState :=
  ⟨0, 0, 0, 0, 0, 0, 0, 0, 0, 0, 0, 0, 0, 0, 0, 0, 0, 0, 0, 0, 0, 0, 0, 0, 0⟩

/-- Keccak-256 of a byte list (Ethereum's `ethers.keccak256`). -/
def keccak256 (msg : List Nat) : List Nat :=
  let padded := msg ++ keccakPad msg.length
  let s := (toBlocks padded).foldl absorbBlock kInit
  laneToBytes s.s0 ++ laneToBytes s.s1 ++ laneToBytes s.s2 ++ laneToBytes s.s3

/-- UTF-8 bytes of an ASCII string (`ethers.toUtf8Bytes` on the scripts'
all-ASCII inputs). -/
def asciiBytes (s : String) : List Nat := s.data.map Char.toNat

/-- Value of one hexadecimal digit character. -/
def hexDigitVal (c : Char) : Nat :=
  if c ≤ '9' then c.toNat - 48 else if c ≤ 'F' then c.toNat - 55 else c.toNat - 87

/-- Combine a list of hex-digit values into bytes, two digits per byte. -/
def pairUp : List Nat → List Nat
  | a :: b :: rest => (16 * a + b) :: pairUp rest
  | _ => []

/-- Bytes of a `0x`-prefixed hexadecimal string literal. -/
def hexBytes (s : String) : List Nat :=
  pairUp (((s.drop 2).data).map hexDigitVal)

/-- Value of a decimal string (the scripts pass amounts as decimal strings). -/
def decNat (s : String) : Nat :=
  s.data.foldl (fun acc c => 10 * acc + (c.toNat - 48)) 0

/-- Big-endian bytes of `n`, `width` bytes wide (`solidityPacked` for
`uintN`). -/
def beBytes (width n : Nat) : List Nat :=
  (List.range width).map (fun i => (n >>> (8 * (width - 1 - i))) % 256)

/-- The 12-field Order message shape with `kind`, `partiallyFillable` (here
`pFillable`, renamed for the development), `sellTokenBalance` and
`buyTokenBalance` carried as dynamic values: a string, a boolean and two
strings, as in `debug-eip712.js` lines 55-68. -/
structure OrderMessageDyn where
  sellToken : String
  buyToken : String
  receiver : String
  sellAmount : String
  buyAmount : String
  validTo : Nat
  appData : String
  feeAmount : String
  kind : String
  pFillable : Bool
  sellTokenBalance : String
  buyTokenBalance : String

/-- The same Order message shape with those four fields carried as fixed
bytes values: `bytes32`, `bytes1`, `bytes32`, `bytes32` hex strings, as in
`recover-test.js` lines 50-63. -/
structure OrderMessageFixed where
  sellToken : String
  buyToken : String
  receiver : String
  sellAmount : String
  buyAmount : String
  validTo : Nat
  appData : String
  feeAmount : String
  kind : String
  pFillable : String
  sellTokenBalance : String
  buyTokenBalance : String

/-- The Order type string with dynamic `string`/`bool` field types
(`debug-eip712.js` lines 98-100). -/
def orderTypeStringDyn : String :=
  "Order(address sellToken,address buyToken,address receiver,uint256 sellAmount,uint256 buyAmount,uint32 validTo,bytes32 appData,uint256 feeAmount,string kind,bool partiallyFillable,string sellTokenBalance,string buyTokenBalance)"

/-- The Order type string with fixed `bytes32`/`bytes1` field types
(`recover-test.js` lines 100-102). -/
def orderTypeStringFixed : String :=
  "Order(address sellToken,address buyToken,address receiver,uint256 sellAmount,uint256 buyAmount,uint32 validTo,bytes32 appData,uint256 feeAmount,bytes32 kind,bytes1 partiallyFillable,bytes32 sellTokenBalance,bytes32 buyTokenBalance)"

/-- The struct hash computed by `debug-eip712.js` lines 111-128:
`keccak256(solidityPacked([...], [orderTypeHash, ...]))` where the dynamic
fields `kind`, `sellTokenBalance`, `buyTokenBalance` contribute the hash of
their UTF-8 bytes and the boolean packs as one byte. -/
def structHashDyn (m : OrderMessageDyn) : List Nat :=
  keccak256 (keccak256 (asciiBytes orderTypeStringDyn) ++
    hexBytes m.sellToken ++ hexBytes m.buyToken ++ hexBytes m.receiver ++
    beBytes 32 (decNat m.sellAmount) ++ beBytes 32 (decNat m.buyAmount) ++
    beBytes 4 m.validTo ++ hexBytes m.appData ++ beBytes 32 (decNat m.feeAmount) ++
    keccak256 (asciiBytes m.kind) ++ [if m.pFillable then 1 else 0] ++
    keccak256 (asciiBytes m.sellTokenBalance) ++ keccak256 (asciiBytes m.buyTokenBalance))

/-- The struct hash computed by `recover-test.js` lines 104-121: the same
packing but with `kind`, `partiallyFillable`, `sellTokenBalance` and
`buyTokenBalance` packed raw as `bytes32`/`bytes1`/`bytes32`/`bytes32`. -/
def structHashFixed (m : OrderMessageFixed) : List Nat :=
  keccak256 (keccak256 (asciiBytes orderTypeStringFixed) ++
    hexBytes m.sellToken ++ hexBytes m.buyToken ++ hexBytes m.receiver ++
    beBytes 32 (decNat m.sellAmount) ++ beBytes 32 (decNat m.buyAmount) ++
    beBytes 4 m.validTo ++ hexBytes m.appData ++ beBytes 32 (decNat m.feeAmount) ++
    hexBytes m.kind ++ hexBytes m.pFillable ++
    hexBytes m.sellTokenBalance ++ hexBytes m.buyTokenBalance)

/-- The domain separator computed by the scripts (`recover-test.js` lines
90-98): `keccak256(solidityPacked([bytes32, bytes32, bytes32, uint256,
address], [domainTypeHash, nameHash, versionHash, chainId, contract]))`. -/
def domainSeparatorOf (name version : String) (chainId : Nat) (vc : String) : List Nat :=
  keccak256 (keccak256 (asciiBytes "EIP712Domain(string name,string version,uint256 chainId,address verifyingContract)") ++
    keccak256 (asciiBytes name) ++ keccak256 (asciiBytes version) ++
    beBytes 32 chainId ++ hexBytes vc)

/-- The final digest (`recover-test.js` lines 123-126):
`keccak256(solidityPacked([string, bytes32, bytes32],
["\x19\x01", domainSeparator, structHash]))`. -/
def finalDigest (domainSeparator structHash : List Nat) : List Nat :=
  keccak256 ([0x19, 0x01] ++ domainSeparator ++ structHash)

/-- The scripts' domain separator for the Gnosis Protocol v2 domain. -/
def gnosisSeparator : List Nat :=
  domainSeparatorOf "Gnosis Protocol" "v2" 1 "0x9008D19f58AAbD9eD0D60971565AA8510560ab41"

/-- The Order message of `recover-test.js` lines 50-63, verbatim: the four
balance/kind/fillable fields are the fixed 32-byte (resp. 1-byte) CoW
constants `keccak256("sell")`, `0x00`, `keccak256("erc20")`. -/
def recoverTestMessage : OrderMessageFixed :=
  { sellToken := "0xA0b86991c6218b36c1d19D4a2e9Eb0cE3606eB48"
    buyToken := "0xdAC17F958D2ee523a2206206994597C13D831ec7"
    receiver := "0x0000000000000000000000000000000000000000"
    sellAmount := "9077413"
    buyAmount := "9061733"
    validTo := 1758213165
    appData := "0x04bc4286b5202cee3733fe058851602586be788e278e88a29baab1f95b77a043"
    feeAmount := "922587"
    kind := "0xf3b277728b3fee749481eb3e0b3b48980dbbab78658fc419025cb16eee346775"
    pFillable := "0x00"
    sellTokenBalance := "0x5a28e9363bb942b639270062aa6bb295f434bcdfc42c97267bf003f272060dc9"
    buyTokenBalance := "0x5a28e9363bb942b639270062aa6bb295f434bcdfc42c97267bf003f272060dc9" }

/-- The same underlying order as `recoverTestMessage`, with the four fixed
fields expressed as their dynamic sources, `debug-eip712.js` style:
`kind = "sell"`, `partiallyFillable = false`, balances `"erc20"`. -/
def orderMessageAsStrings : OrderMessageDyn :=
  { sellToken := "0xA0b86991c6218b36c1d19D4a2e9Eb0cE3606eB48"
    buyToken := "0xdAC17F958D2ee523a2206206994597C13D831ec7"
    receiver := "0x0000000000000000000000000000000000000000"
    sellAmount := "9077413"
    buyAmount := "9061733"
    validTo := 1758213165
    appData := "0x04bc4286b5202cee3733fe058851602586be788e278e88a29baab1f95b77a043"
    feeAmount := "922587"
    kind := "sell"
    pFillable := false
    sellTokenBalance := "erc20"
    buyTokenBalance := "erc20" }

/-!
## Association-list lemmas

Facts about the JavaScript-object model (`getKey`, `setKey`, `foldProject`)
used to settle the field-order and deadline-injection claims.
-/

theorem getKey_setKey_self (m : Message) (k : String) (v : JValue) :
    getKey (setKey m k v) k = some v := by
  induction m with
  | nil => simp [setKey, getKey]
  | cons p rest ih =>
      obtain ⟨k', v'⟩ := p
      by_cases h : k' = k
      · subst h
        simp [setKey, getKey]
      · simp [setKey, getKey, h, ih]

theorem getKey_setKey_ne (m : Message) (k' : String) (v : JValue) (k : String)
    (h : k' ≠ k) : getKey (setKey m k' v) k = getKey m k := by
  induction m with
  | nil => simp [setKey, getKey, h]
  | cons p rest ih =>
      obtain ⟨k0, v0⟩ := p
      by_cases h0 : k0 = k'
      · subst h0
        simp [setKey, getKey, h]
      · simp [setKey, getKey, h0, ih]

theorem getKey_eq_none_iff (m : Message) (k : String) :
    getKey m k = none ↔ k ∉ keysOf m := by
  induction m with
  | nil => simp [getKey, keysOf]
  | cons p rest ih =>
      obtain ⟨k', v'⟩ := p
      by_cases h : k' = k
      · subst h
        simp [getKey, keysOf]
      · simp [getKey, keysOf, h, ih, Ne.symm h]

theorem getKey_append_of_none (a b : Message) (k : String)
    (h : getKey a k = none) : getKey (a ++ b) k = getKey b k := by
  induction a with
  | nil => rfl
  | cons p rest ih =>
      obtain ⟨k', v'⟩ := p
      by_cases h0 : k' = k
      · subst h0
        simp [getKey] at h
      · simp [getKey, h0] at h ⊢
        exact ih h

theorem setKey_eq_append (m : Message) (k : String) (v : JValue)
    (h : getKey m k = none) : setKey m k v = m ++ [(k, v)] := by
  induction m with
  | nil => rfl
  | cons p rest ih =>
      obtain ⟨k', v'⟩ := p
      by_cases h0 : k' = k
      · subst h0
        simp [getKey] at h
      · simp [getKey, h0] at h
        simp [setKey, h0, ih h]

theorem mem_setKey (m : Message) (k : String) (v : JValue) :
    ∀ p ∈ setKey m k v, p ∈ m ∨ p = (k, v) := by
  induction m with
  | nil =>
      intro p hp
      simp [setKey] at hp
      exact Or.inr hp
  | cons q rest ih =>
      intro p hp
      obtain ⟨k', v'⟩ := q
      by_cases h0 : k' = k
      · subst h0
        simp [setKey] at hp
        rcases hp with h | h
        · exact Or.inr (by simp [h])
        · exact Or.inl (by simp [h])
      · simp [setKey, h0] at hp
        rcases hp with h | h
        · exact Or.inl (by simp [h])
        · rcases ih p h with h' | h'
          · exact Or.inl (by simp [h'])
          · exact Or.inr h'

theorem foldProject_congr (names : List String) (m1 m2 : Message)
    (h : ∀ n ∈ names, getKey m1 n = getKey m2 n) (acc : Message) :
    foldProject names m1 acc = foldProject names m2 acc := by
  induction names generalizing acc with
  | nil => rfl
  | cons n rest ih =>
      have h1 := h n (List.mem_cons_self n rest)
      have h2 : ∀ n' ∈ rest, getKey m1 n' = getKey m2 n' :=
        fun n' hn' => h n' (List.mem_cons_of_mem n hn')
      simp only [foldProject, h1]
      cases getKey m2 n with
      | some v => exact ih h2 (setKey acc n v)
      | none => exact ih h2 acc

theorem getKey_foldProject_of_none (names : List String) (m : Message)
    (k : String) (h : getKey m k = none) (acc : Message) :
    getKey (foldProject names m acc) k = getKey acc k := by
  induction names generalizing acc with
  | nil => rfl
  | cons n rest ih =>
      simp only [foldProject]
      cases hm : getKey m n with
      | none => exact ih acc
      | some v =>
          have hnk : n ≠ k := by
            intro he
            rw [he, h] at hm
            cases hm
          rw [ih (setKey acc n v), getKey_setKey_ne acc n v k hnk]

theorem getKey_of_mem_foldProject (names : List String) (m : Message) :
    ∀ acc, (∀ q ∈ acc, getKey m q.1 = some q.2) →
    ∀ p ∈ foldProject names m acc, getKey m p.1 = some p.2 := by
  induction names with
  | nil => intro acc hacc p hp; exact hacc p hp
  | cons n rest ih =>
      intro acc hacc p hp
      simp only [foldProject] at hp
      cases hm : getKey m n with
      | none =>
          rw [hm] at hp
          exact ih acc hacc p hp
      | some v =>
          rw [hm] at hp
          refine ih (setKey acc n v) ?_ p hp
          intro q hq
          rcases mem_setKey acc n v q hq with h' | h'
          · exact hacc q h'
          · rw [h']
            exact hm

/-- The entries the reorder loop produces: the declared names present in
the message, paired with their values, in declared order. -/
def projEntries : List String → Message → Message
  | [], _ => []
  | n :: rest, m =>
      match getKey m n with
      | some v => (n, v) :: projEntries rest m
      | none => projEntries rest m

theorem projEntries_congr (names : List String) (m1 m2 : Message)
    (h : ∀ n ∈ names, getKey m1 n = getKey m2 n) :
    projEntries names m1 = projEntries names m2 := by
  induction names with
  | nil => rfl
  | cons n rest ih =>
      have h1 := h n (List.mem_cons_self n rest)
      have h2 : ∀ n' ∈ rest, getKey m1 n' = getKey m2 n' :=
        fun n' hn' => h n' (List.mem_cons_of_mem n hn')
      cases hm : getKey m2 n with
      | some v => simp only [projEntries, h1, hm, ih h2]
      | none => simp only [projEntries, h1, hm, ih h2]

theorem foldProject_eq_projEntries (names : List String) (m : Message) :
    ∀ acc, names.Nodup → (∀ n ∈ names, getKey acc n = none) →
    foldProject names m acc = acc ++ projEntries names m := by
  induction names with
  | nil => intro acc _ _; simp [foldProject, projEntries]
  | cons n rest ih =>
      intro acc hnd hacc
      have hnd' := (List.nodup_cons.mp hnd).2
      have hnn : n ∉ rest := (List.nodup_cons.mp hnd).1
      cases hm : getKey m n with
      | none =>
          simp only [foldProject, hm, projEntries]
          exact ih acc hnd' (fun n' hn' => hacc n' (List.mem_cons_of_mem n hn'))
      | some v =>
          simp only [foldProject, hm, projEntries]
          rw [setKey_eq_append acc n v (hacc n (List.mem_cons_self n rest))]
          rw [ih (acc ++ [(n, v)]) hnd' ?_]
          · simp
          · intro n' hn'
            have hne : n ≠ n' := fun he => hnn (he ▸ hn')
            rw [getKey_append_of_none acc [(n, v)] n'
                (hacc n' (List.mem_cons_of_mem n hn'))]
            simp [getKey, hne]

theorem keysOf_projEntries (names : List String) (m : Message) :
    keysOf (projEntries names m) = names.filter (fun n => (getKey m n).isSome) := by
  induction names with
  | nil => rfl
  | cons n rest ih =>
      cases hm : getKey m n with
      | none => simp only [projEntries, hm, List.filter_cons, Option.isSome_none,
          Bool.false_eq_true, if_neg, ih, reduceIte]
      | some v =>
          simp only [projEntries, hm, List.filter_cons, Option.isSome_some,
            keysOf, List.map_cons, reduceIte]
          exact congrArg (List.cons n) ih

theorem projEntries_of_keysOf (m : Message) (hnd : (keysOf m).Nodup) :
    projEntries (keysOf m) m = m := by
  induction m with
  | nil => rfl
  | cons p rest ih =>
      obtain ⟨k, v⟩ := p
      have hk : k ∉ keysOf rest := (List.nodup_cons.mp hnd).1
      have hnd' : (keysOf rest).Nodup := (List.nodup_cons.mp hnd).2
      have hagree : ∀ n ∈ keysOf rest, getKey ((k, v) :: rest) n = getKey rest n := by
        intro n hn
        have hne : k ≠ n := fun he => hk (he ▸ hn)
        simp [getKey, hne]
      have hself : getKey ((k, v) :: rest) k = some v := by simp [getKey]
      show projEntries (k :: keysOf rest) ((k, v) :: rest) = (k, v) :: rest
      simp only [projEntries, hself]
      rw [projEntries_congr _ _ _ hagree, ih hnd']

theorem getKey_eq_of_perm {m1 m2 : Message} (hp : List.Perm m1 m2) :
    (keysOf m1).Nodup → ∀ n, getKey m1 n = getKey m2 n := by
  induction hp with
  | nil => intro _ n; rfl
  | cons p _ ih =>
      intro hnd n
      obtain ⟨k, v⟩ := p
      have hnd' : (keysOf _).Nodup := (List.nodup_cons.mp hnd).2
      by_cases h : k = n
      · simp [getKey, h]
      · simp only [getKey, h]
        simpa [h] using ih hnd' n
  | swap p q l =>
      intro hnd n
      obtain ⟨k1, v1⟩ := p
      obtain ⟨k2, v2⟩ := q
      have h1 := (List.nodup_cons.mp hnd).1
      have hne : k2 ≠ k1 := by
        intro he
        exact h1 (by rw [he]; exact List.mem_cons_self _ _)
      by_cases hc1 : k2 = n
      · subst hc1
        simp [getKey, hne, hne.symm]
      · by_cases hc2 : k1 = n
        · subst hc2
          simp [getKey, hne, hne.symm, hc1]
        · simp [getKey, hc1, hc2]
  | trans hab _ ih1 ih2 =>
      intro hnd n
      rw [ih1 hnd n, ih2 (((hab.map Prod.fst).nodup_iff).mp hnd) n]

theorem message_ext (m1 : Message) :
    ∀ m2 : Message, keysOf m1 = keysOf m2 → (keysOf m1).Nodup →
    (∀ n, getKey m1 n = getKey m2 n) → m1 = m2 := by
  induction m1 with
  | nil =>
      intro m2 hk _ _
      cases m2 with
      | nil => rfl
      | cons q t2 => simp [keysOf] at hk
  | cons p t1 ih =>
      intro m2 hk hnd hg
      obtain ⟨k, v⟩ := p
      cases m2 with
      | nil => simp [keysOf] at hk
      | cons q t2 =>
          obtain ⟨k2, v2⟩ := q
          simp only [keysOf, List.map_cons, List.cons.injEq] at hk
          obtain ⟨hkk1, hkk2⟩ := hk
          subst hkk1
          have hv : v = v2 := by
            have := hg k
            simpa [getKey] using this
          subst hv
          have hk1 : k ∉ keysOf t1 := (List.nodup_cons.mp hnd).1
          have hnd' : (keysOf t1).Nodup := (List.nodup_cons.mp hnd).2
          have hg' : ∀ n, getKey t1 n = getKey t2 n := by
            intro n
            by_cases h : k = n
            · subst h
              rw [(getKey_eq_none_iff t1 k).mpr hk1,
                  (getKey_eq_none_iff t2 k).mpr (by
                    show k ∉ List.map Prod.fst t2
                    rw [← hkk2]
                    exact hk1)]
            · have := hg n
              simpa [getKey, h] using this
          rw [ih t2 hkk2 hnd' hg']

/-!
## Unfolding lemmas for the signer
-/

theorem checkFieldOrder_some (types : TypesMap) (pn : String) (m : Message)
    (hfind : primaryKeysFind types = some pn) :
    checkFieldOrder types m =
      { isOrdered := ((assocFind types pn).getD []).map (fun f => f.name) == keysOf m,
        typeOrder := ((assocFind types pn).getD []).map (fun f => f.name),
        messageOrder := keysOf m,
        reorderedMessage :=
          foldProject (((assocFind types pn).getD []).map (fun f => f.name)) m [],
        primaryType := some pn } := by
  unfold checkFieldOrder
  rw [hfind]

theorem addDeadline_some (types : TypesMap) (pn : String) (fields : List FieldDef)
    (v : Message) (dl : Nat) (hfind : primaryKeysFind types = some pn)
    (hlook : assocFind types pn = some fields) :
    addDeadline types v dl =
      if fields.any (fun f => f.name == "deadline")
      then setKey v "deadline" (JValue.num dl) else v := by
  simp only [addDeadline, hfind, hlook]

theorem finishSign_ok (eth : EthersApi) (w : Wallet) (dom : DomainJS)
    (types : TypesMap) (mwd : Message) (dl : Nat) (r : SigningResult)
    (h : finishSign eth w dom types mwd dl = Except.ok r) :
    r.messageWithDeadline = mwd ∧ r.deadline = dl ∧ r.signer = w.address ∧
    eth.wSignTypedData w dom types mwd = Except.ok r.signature ∧
    eth.verifyTypedData dom types mwd r.signature = Except.ok r.recoveredAddress := by
  unfold finishSign at h
  cases hs : eth.wSignTypedData w dom types mwd with
  | error e =>
      simp only [hs] at h
      exact Except.noConfusion h
  | ok sig =>
      simp only [hs] at h
      cases hv : eth.verifyTypedData dom types mwd sig with
      | error e =>
          simp only [hv] at h
          exact Except.noConfusion h
      | ok addr =>
          simp only [hv, Except.ok.injEq] at h
          subst h
          exact ⟨rfl, rfl, rfl, rfl, hv⟩

theorem signTypedDataJS_eq (eth : EthersApi) (w : Wallet) (dateNowMs : Nat)
    (dom : DomainJS) (types : TypesMap) (v : Message) (dl : Option Nat) :
    signTypedDataJS eth w dateNowMs dom types v dl =
      finishSign eth w dom types
        (addDeadline types (reconcileValue types v) (effectiveDeadline dateNowMs dl))
        (effectiveDeadline dateNowMs dl) := rfl

theorem reconcileValue_eq_foldProject (types : TypesMap) (pn : String) (m : Message)
    (hfind : primaryKeysFind types = some pn) (hnd : (keysOf m).Nodup) :
    reconcileValue types m =
      foldProject (((assocFind types pn).getD []).map (fun f => f.name)) m [] := by
  unfold reconcileValue
  rw [checkFieldOrder_some types pn m hfind]
  by_cases hord : ((assocFind types pn).getD []).map (fun f => f.name) == keysOf m
  · have he : ((assocFind types pn).getD []).map (fun f => f.name) = keysOf m :=
      beq_iff_eq.mp hord
    rw [he]
    simp only [hord, beq_self_eq_true]
    rw [foldProject_eq_projEntries (keysOf m) m [] (he ▸ hnd) (fun n _ => rfl)]
    rw [projEntries_of_keysOf m hnd]
    simp [he]
  · simp only [hord]
    simp

theorem getKey_reordered_none (types : TypesMap) (m : Message) (k : String)
    (h : getKey m k = none) :
    getKey (checkFieldOrder types m).reorderedMessage k = none := by
  unfold checkFieldOrder
  cases hf : primaryKeysFind types with
  | none => simpa using h
  | some pn =>
      simp only []
      rw [getKey_foldProject_of_none _ _ _ h []]
      rfl

theorem getKey_reconcileValue_none (types : TypesMap) (m : Message) (k : String)
    (h : getKey m k = none) : getKey (reconcileValue types m) k = none := by
  unfold reconcileValue
  by_cases hord : (checkFieldOrder types m).isOrdered
  · simp [hord, h]
  · simp [hord, getKey_reordered_none types m k h]

/-!
## Concrete fixtures

Small concrete instantiations of the abstract `ethers` interface and of
domains, types and messages, used by counterexamples and witnesses.
-/

/-- An environment whose signing always succeeds with a fixed signature and
whose recovery returns a fixed address `0xE`, unrelated to the signer. -/
def stubEthers : EthersApi :=
  { wSignTypedData := fun _ _ _ _ => Except.ok "0xsig"
    verifyTypedData := fun _ _ _ _ => Except.ok "0xE"
    getAddress := fun s => Except.ok s }

/-- An environment in which recovery inverts signing: the signature carries
the signer's address and recovery returns it. -/
def goodEthers : EthersApi :=
  { wSignTypedData := fun w _ _ _ => Except.ok w.address
    verifyTypedData := fun _ _ _ s => Except.ok s
    getAddress := fun s => Except.ok s }

def walletA : Wallet := { address := "0xA" }

def domTest : DomainJS :=
  { name := "Test", version := "1", chainId := 1, verifyingContract := "0xC" }

/-- The Vote type of the repository's test file, fields `[proposal, support]`. -/
def typesVote : TypesMap :=
  [("Vote", [⟨"proposal", "uint256"⟩, ⟨"support", "bool"⟩])]

def msgProposalFirst : Message :=
  [("proposal", JValue.num 1), ("support", JValue.bool true)]

def msgSupportFirst : Message :=
  [("support", JValue.bool true), ("proposal", JValue.num 1)]

def typesSingle : TypesMap := [("M", [⟨"x", "uint256"⟩])]

def msgSingle : Message := [("x", JValue.num 1)]

/-- A type declaring a `deadline` field after an `amount` field. -/
def typesWithDeadline : TypesMap :=
  [("T", [⟨"amount", "uint256"⟩, ⟨"deadline", "uint256"⟩])]

/-- A caller-supplied tree that already contains `deadline = 5`. -/
def msgDeadline5 : Message :=
  [("amount", JValue.num 1), ("deadline", JValue.num 5)]

/-- The Action type of the repository's test file: `[user, action?]` reduced
to `[user, deadline]` fields for the deadline-generation scenario. -/
def typesAction : TypesMap :=
  [("Action", [⟨"user", "address"⟩, ⟨"deadline", "uint256"⟩])]

def msgUser : Message := [("user", JValue.str "0xA")]

/-!
## Claims
-/

/-- C1, amended: `signTypedData` computes `recoveredAddress` by calling the
library's typed-data recovery on the tree it signed and returns it in the
result next to the signer's address, without ever comparing the two; under
the assumption that the library's recovery inverts its signing for the held
wallet, the recovered address equals the signer's address. -/
theorem c1_recovery_roundtrip (eth : EthersApi) (w : Wallet) (dateNowMs : Nat)
    (dom : DomainJS) (types : TypesMap) (v : Message) (dl : Option Nat)
    (r : SigningResult)
    (hlaw : ∀ d t m s, eth.wSignTypedData w d t m = Except.ok s →
        eth.verifyTypedData d t m s = Except.ok w.address)
    (hok : signTypedDataJS eth w dateNowMs dom types v dl = Except.ok r) :
    r.recoveredAddress = w.address ∧ r.signer = w.address := by
  rw [signTypedDataJS_eq] at hok
  obtain ⟨_, _, hsigner, hsig, hver⟩ := finishSign_ok _ _ _ _ _ _ _ hok
  have hlaw2 := hlaw _ _ _ _ hsig
  rw [hver] at hlaw2
  injection hlaw2 with h2
  exact ⟨h2, hsigner⟩

def resGood : SigningResult :=
  { signature := "0xA", deadline := 5, recoveredAddress := "0xA",
    messageWithDeadline := msgSingle, signer := "0xA" }

theorem c1_recovery_roundtrip_witness :
    resGood.recoveredAddress = walletA.address ∧ resGood.signer = walletA.address :=
  c1_recovery_roundtrip goodEthers walletA 0 domTest typesSingle msgSingle
    (some 5) resGood
    (fun d t m s h => by
      injection h with h2
      rw [← h2]
      rfl)
    rfl

/-- C1, counterexample: the service never compares the recovered address
with the signer's address — in an environment whose recovery returns an
address different from the signer's, `signTypedData` still returns a
result, with mismatched `recoveredAddress` and `signer`, instead of
reporting any error. -/
theorem c1_counterexample :
    Except.map (fun r => (r.recoveredAddress, r.signer))
        (signTypedDataJS stubEthers walletA 0 domTest typesVote
          msgProposalFirst (some 9)) =
      Except.ok ("0xE", "0xA")
    ∧ ("0xE" : String) ≠ "0xA" :=
  ⟨rfl, by decide⟩

/-- C2, amended: the `deadline` entry of the signed tree is governed only by
whether the primary type declares a `deadline` field.  When it does, the
entry is always set to the effective deadline (the explicit one if nonzero,
else the generated one), overwriting any value the caller put in the tree;
when it does not, nothing is injected and a tree without a `deadline` key
stays without one. -/
theorem c2_deadline_overwrite (eth : EthersApi) (w : Wallet) (dateNowMs : Nat)
    (dom : DomainJS) (types : TypesMap) (v : Message) (dl : Option Nat)
    (pn : String) (fields : List FieldDef) (r : SigningResult)
    (hfind : primaryKeysFind types = some pn)
    (hlook : assocFind types pn = some fields)
    (hok : signTypedDataJS eth w dateNowMs dom types v dl = Except.ok r) :
    (fields.any (fun f => f.name == "deadline") = true →
      getKey r.messageWithDeadline "deadline" =
        some (JValue.num (effectiveDeadline dateNowMs dl)))
    ∧ (fields.any (fun f => f.name == "deadline") = false →
        getKey v "deadline" = none →
        getKey r.messageWithDeadline "deadline" = none) := by
  rw [signTypedDataJS_eq] at hok
  obtain ⟨hm, _, _, _, _⟩ := finishSign_ok _ _ _ _ _ _ _ hok
  constructor
  · intro hany
    rw [hm, addDeadline_some types pn fields _ _ hfind hlook, if_pos hany]
    exact getKey_setKey_self _ _ _
  · intro hany hnone
    rw [hm, addDeadline_some types pn fields _ _ hfind hlook,
        if_neg (by simp [hany])]
    exact getKey_reconcileValue_none types v "deadline" hnone

def resC2 : SigningResult :=
  { signature := "0xsig", deadline := 7, recoveredAddress := "0xE",
    messageWithDeadline := [("amount", JValue.num 1), ("deadline", JValue.num 7)],
    signer := "0xA" }

theorem c2_deadline_overwrite_witness :
    ([⟨"amount", "uint256"⟩, ⟨"deadline", "uint256"⟩] : List FieldDef).any
        (fun f => f.name == "deadline") = true ∧
    getKey resC2.messageWithDeadline "deadline" =
      some (JValue.num (effectiveDeadline 0 (some 7))) :=
  ⟨rfl,
    (c2_deadline_overwrite stubEthers walletA 0 domTest typesWithDeadline
      msgDeadline5 (some 7) "T" [⟨"amount", "uint256"⟩, ⟨"deadline", "uint256"⟩]
      resC2 rfl rfl rfl).1 rfl⟩

/-- C2, counterexample: the claim's "a caller-supplied deadline inside the
value tree is left unchanged" is false — for a type declaring a `deadline`
field, a tree carrying `deadline = 5` is signed with its deadline
overwritten by the explicit deadline 7. -/
theorem c2_counterexample :
    Except.map (fun r => getKey r.messageWithDeadline "deadline")
        (signTypedDataJS stubEthers walletA 0 domTest typesWithDeadline
          msgDeadline5 (some 7)) =
      Except.ok (some (JValue.num 7))
    ∧ getKey msgDeadline5 "deadline" = some (JValue.num 5)
    ∧ JValue.num 7 ≠ JValue.num 5 :=
  ⟨rfl, rfl, by simp⟩

/-- C3: on a types mapping that has a primary type, two value trees that are
permutations of the same (distinct-key) entries produce identical results —
digest, signature, everything — because both reconcile to the same tree. -/
theorem c3_field_order_invariance (eth : EthersApi) (w : Wallet)
    (dateNowMs : Nat) (dom : DomainJS) (types : TypesMap) (dl : Option Nat)
    (m1 m2 : Message)
    (hprim : (primaryKeysFind types).isSome = true)
    (hperm : List.Perm m1 m2)
    (hnd : (keysOf m1).Nodup) :
    signTypedDataJS eth w dateNowMs dom types m1 dl =
      signTypedDataJS eth w dateNowMs dom types m2 dl := by
  obtain ⟨pn, hpn⟩ := Option.isSome_iff_exists.mp hprim
  have hnd2 : (keysOf m2).Nodup := ((hperm.map Prod.fst).nodup_iff).mp hnd
  have hrec : reconcileValue types m1 = reconcileValue types m2 := by
    rw [reconcileValue_eq_foldProject types pn m1 hpn hnd,
        reconcileValue_eq_foldProject types pn m2 hpn hnd2]
    exact foldProject_congr _ _ _ (fun n _ => getKey_eq_of_perm hperm hnd n) []
  rw [signTypedDataJS_eq, signTypedDataJS_eq, hrec]

theorem c3_field_order_invariance_witness :
    (primaryKeysFind typesVote).isSome = true ∧
    signTypedDataJS stubEthers walletA 0 domTest typesVote msgSupportFirst
        (some 9) =
      signTypedDataJS stubEthers walletA 0 domTest typesVote msgProposalFirst
        (some 9) :=
  ⟨rfl,
    c3_field_order_invariance stubEthers walletA 0 domTest typesVote (some 9)
      msgSupportFirst msgProposalFirst rfl
      (List.Perm.swap ("proposal", JValue.num 1) ("support", JValue.bool true) [])
      (by decide)⟩

/-- C5: with a fixed nonzero explicit deadline, `signTypedData` does not
depend on the clock at all — two calls with identical arguments at any two
times return identical results (digest, signature, everything); the clock
enters only through deadline generation. -/
theorem c5_deterministic_with_fixed_deadline (eth : EthersApi) (w : Wallet)
    (now1 now2 : Nat) (dom : DomainJS) (types : TypesMap) (v : Message)
    (d : Nat) (hd : d ≠ 0) :
    signTypedDataJS eth w now1 dom types v (some d) =
      signTypedDataJS eth w now2 dom types v (some d) := by
  have he : ∀ nowMs, effectiveDeadline nowMs (some d) = d := by
    intro nowMs
    simp [effectiveDeadline, hd]
  rw [signTypedDataJS_eq, signTypedDataJS_eq, he, he]

theorem c5_deterministic_witness :
    (1700000000 : Nat) ≠ 0 ∧
    signTypedDataJS stubEthers walletA 11111 domTest typesVote msgProposalFirst
        (some 1700000000) =
      signTypedDataJS stubEthers walletA 99999999 domTest typesVote
        msgProposalFirst (some 1700000000) :=
  ⟨by decide,
    c5_deterministic_with_fixed_deadline stubEthers walletA 11111 99999999
      domTest typesVote msgProposalFirst 1700000000 (by decide)⟩

/-- C6: signing a type that declares a `deadline` field, with no deadline in
the tree and no explicit deadline argument, injects
`Math.floor(Date.now() / 1000) + 3600` as the deadline of the signed tree
(and reports it as the result's `deadline`). -/
theorem c6_generated_deadline (eth : EthersApi) (w : Wallet) (dateNowMs : Nat)
    (dom : DomainJS) (types : TypesMap) (v : Message)
    (pn : String) (fields : List FieldDef) (r : SigningResult)
    (hfind : primaryKeysFind types = some pn)
    (hlook : assocFind types pn = some fields)
    (hdecl : fields.any (fun f => f.name == "deadline") = true)
    (hnone : getKey v "deadline" = none)
    (hok : signTypedDataJS eth w dateNowMs dom types v none = Except.ok r) :
    r.deadline = dateNowMs / 1000 + 3600 ∧
    getKey r.messageWithDeadline "deadline" =
      some (JValue.num (dateNowMs / 1000 + 3600)) := by
  rw [signTypedDataJS_eq] at hok
  obtain ⟨hm, hdl, _, _, _⟩ := finishSign_ok _ _ _ _ _ _ _ hok
  have heff : effectiveDeadline dateNowMs none = dateNowMs / 1000 + 3600 := rfl
  refine ⟨by rw [hdl, heff], ?_⟩
  rw [hm, addDeadline_some types pn fields _ _ hfind hlook, if_pos hdecl, heff]
  exact getKey_setKey_self _ _ _

def resC6 : SigningResult :=
  { signature := "0xsig", deadline := 1700003600, recoveredAddress := "0xE",
    messageWithDeadline :=
      [("user", JValue.str "0xA"), ("deadline", JValue.num 1700003600)],
    signer := "0xA" }

theorem c6_generated_deadline_witness :
    resC6.deadline = 1700000000123 / 1000 + 3600 ∧
    getKey resC6.messageWithDeadline "deadline" =
      some (JValue.num (1700000000123 / 1000 + 3600)) :=
  c6_generated_deadline stubEthers walletA 1700000000123 domTest typesAction
    msgUser "Action" [⟨"user", "address"⟩, ⟨"deadline", "uint256"⟩] resC6
    rfl rfl rfl rfl rfl

/-- C7: when the message's key order differs from the declared field order,
the reconciled tree consists exactly of the declared fields present in the
message, in declared order; undeclared fields are dropped silently — any
two messages agreeing on the declared fields produce identical results, so
extra fields never cause an error and never affect the digest. -/
theorem c7_undeclared_fields_dropped (eth : EthersApi) (w : Wallet)
    (dateNowMs : Nat) (dom : DomainJS) (dl : Option Nat) (types : TypesMap)
    (m1 m2 : Message) (pn : String) (fields : List FieldDef)
    (hfind : primaryKeysFind types = some pn)
    (hlook : assocFind types pn = some fields)
    (hndf : (fields.map (fun f => f.name)).Nodup)
    (h1 : fields.map (fun f => f.name) ≠ keysOf m1)
    (h2 : fields.map (fun f => f.name) ≠ keysOf m2)
    (hagree : ∀ n ∈ fields.map (fun f => f.name), getKey m1 n = getKey m2 n) :
    keysOf (checkFieldOrder types m1).reorderedMessage =
      (fields.map (fun f => f.name)).filter (fun n => (getKey m1 n).isSome)
    ∧ signTypedDataJS eth w dateNowMs dom types m1 dl =
        signTypedDataJS eth w dateNowMs dom types m2 dl := by
  have hfold : ∀ m : Message,
      foldProject (fields.map (fun f => f.name)) m [] =
        projEntries (fields.map (fun f => f.name)) m := by
    intro m
    rw [foldProject_eq_projEntries _ _ [] hndf (fun n _ => rfl)]
    rfl
  have hrec : ∀ m : Message, fields.map (fun f => f.name) ≠ keysOf m →
      reconcileValue types m = foldProject (fields.map (fun f => f.name)) m [] := by
    intro m hm
    unfold reconcileValue
    rw [checkFieldOrder_some types pn m hfind]
    simp only [hlook, Option.getD_some]
    have hbeq : (fields.map (fun f => f.name) == keysOf m) = false := by
      simpa using hm
    simp [hbeq]
  constructor
  · rw [checkFieldOrder_some types pn m1 hfind]
    simp only [hlook, Option.getD_some]
    rw [hfold m1, keysOf_projEntries]
  · rw [signTypedDataJS_eq, signTypedDataJS_eq, hrec m1 h1, hrec m2 h2,
        foldProject_congr _ _ _ hagree []]

def msgVoteExtra : Message :=
  [("support", JValue.bool true), ("proposal", JValue.num 1),
   ("extra", JValue.str "x")]

theorem c7_undeclared_fields_dropped_witness :
    keysOf (checkFieldOrder typesVote msgVoteExtra).reorderedMessage =
      ["proposal", "support"]
    ∧ signTypedDataJS stubEthers walletA 0 domTest typesVote msgVoteExtra
        (some 9) =
      signTypedDataJS stubEthers walletA 0 domTest typesVote msgSupportFirst
        (some 9) :=
  c7_undeclared_fields_dropped stubEthers walletA 0 domTest (some 9) typesVote
    msgVoteExtra msgSupportFirst "Vote" [⟨"proposal", "uint256"⟩, ⟨"support", "bool"⟩]
    rfl rfl (by decide) (by decide) (by decide)
    (by
      intro n hn
      fin_cases hn <;> rfl)

/-- C8: `signPermit` builds the fixed ERC-20 Permit domain
(name, version defaulting to "1", chainId, checksummed contract), the
five-field Permit type `(owner, spender, value, nonce, deadline)` with
types `(address, address, uint256, uint256, uint256)` in that order, uses
the wallet's own address as `owner` when `permitData.owner` is absent, and
delegates to `signTypedData` with the constructed message's deadline as the
explicit deadline. -/
theorem c8_permit_construction (eth : EthersApi) (w : Wallet) (dateNowMs : Nat)
    (pd : PermitData) (vcA ownA spA : String)
    (hvc : eth.getAddress pd.verifyingContract = Except.ok vcA)
    (hown : resolveOwner eth w pd.owner = Except.ok ownA)
    (hsp : eth.getAddress pd.spender = Except.ok spA) :
    signPermit eth w dateNowMs pd =
      signTypedDataJS eth w dateNowMs
        { name := pd.tokenName, version := pd.tokenVersion.getD "1",
          chainId := pd.chainId, verifyingContract := vcA }
        [("Permit",
          [{ name := "owner", type := "address" },
           { name := "spender", type := "address" },
           { name := "value", type := "uint256" },
           { name := "nonce", type := "uint256" },
           { name := "deadline", type := "uint256" }])]
        [("owner", JValue.str ownA), ("spender", JValue.str spA),
         ("value", pd.value), ("nonce", pd.nonce),
         ("deadline", JValue.num (effectiveDeadline dateNowMs pd.deadline))]
        (some (effectiveDeadline dateNowMs pd.deadline))
    ∧ (pd.owner = none → ownA = w.address) := by
  constructor
  · unfold signPermit
    simp only [hvc, hown, hsp]
    rfl
  · intro h
    rw [h] at hown
    injection hown with h2
    exact h2.symm

def pdSample : PermitData :=
  { tokenName := "Token", tokenVersion := none, chainId := 1,
    verifyingContract := "0xVC", owner := none, spender := "0xSP",
    value := JValue.str "1000", nonce := JValue.num 0,
    deadline := some 1700000000 }

theorem c8_permit_construction_witness :
    signPermit stubEthers walletA 0 pdSample =
      signTypedDataJS stubEthers walletA 0
        { name := "Token", version := "1", chainId := 1,
          verifyingContract := "0xVC" }
        [("Permit",
          [{ name := "owner", type := "address" },
           { name := "spender", type := "address" },
           { name := "value", type := "uint256" },
           { name := "nonce", type := "uint256" },
           { name := "deadline", type := "uint256" }])]
        [("owner", JValue.str "0xA"), ("spender", JValue.str "0xSP"),
         ("value", JValue.str "1000"), ("nonce", JValue.num 0),
         ("deadline", JValue.num 1700000000)]
        (some 1700000000)
    ∧ (pdSample.owner = none → "0xA" = walletA.address) :=
  c8_permit_construction stubEthers walletA 0 pdSample "0xVC" "0xA" "0xSP"
    rfl rfl rfl

/-- C9: a falsy explicit deadline — 0 as much as a missing one — is replaced
by a freshly generated `now / 1000 + 3600`, in `signTypedData` and in
`signPermit` alike, so 0 is never the deadline of a produced result. -/
theorem c9_zero_deadline_regenerated (eth : EthersApi) (w : Wallet)
    (dateNowMs : Nat) (dom : DomainJS) (types : TypesMap) (v : Message)
    (pd : PermitData) :
    signTypedDataJS eth w dateNowMs dom types v (some 0) =
      signTypedDataJS eth w dateNowMs dom types v none
    ∧ signPermit eth w dateNowMs { pd with deadline := some 0 } =
        signPermit eth w dateNowMs { pd with deadline := none }
    ∧ effectiveDeadline dateNowMs (some 0) = dateNowMs / 1000 + 3600
    ∧ (∀ r, signTypedDataJS eth w dateNowMs dom types v (some 0) = Except.ok r →
        r.deadline = dateNowMs / 1000 + 3600) := by
  refine ⟨rfl, rfl, rfl, ?_⟩
  intro r hok
  rw [signTypedDataJS_eq] at hok
  obtain ⟨_, hdl, _, _, _⟩ := finishSign_ok _ _ _ _ _ _ _ hok
  rw [hdl]
  rfl

def resC9 : SigningResult :=
  { signature := "0xsig", deadline := 3602, recoveredAddress := "0xE",
    messageWithDeadline := msgProposalFirst, signer := "0xA" }

theorem c9_zero_deadline_witness : resC9.deadline = 2000 / 1000 + 3600 :=
  (c9_zero_deadline_regenerated stubEthers walletA 2000 domTest typesVote
    msgProposalFirst pdSample).2.2.2 resC9 rfl

/-- C10: both the field-order check and the deadline injection select the
first key of the types mapping (in insertion order) different from
`EIP712Domain` as the primary type, so a mapping listing an auxiliary type
first reconciles against that auxiliary type's fields; the reordered tree
copies each value verbatim (nested objects are not restructured — only the
top-level keys are reordered), and when the selected type declares no
`deadline` field none is injected even if a later type does. -/
theorem c10_primary_type_selection (eth : EthersApi) (w : Wallet)
    (dateNowMs : Nat) (dom : DomainJS) (dl : Option Nat) (types : TypesMap)
    (m : Message) (pn : String) (fields : List FieldDef)
    (hfind : primaryKeysFind types = some pn)
    (hlook : assocFind types pn = some fields) :
    (checkFieldOrder types m).primaryType = some pn
    ∧ (checkFieldOrder types m).typeOrder = fields.map (fun f => f.name)
    ∧ (∀ p ∈ (checkFieldOrder types m).reorderedMessage, getKey m p.1 = some p.2)
    ∧ (fields.any (fun f => f.name == "deadline") = false →
        getKey m "deadline" = none →
        ∀ r, signTypedDataJS eth w dateNowMs dom types m dl = Except.ok r →
          getKey r.messageWithDeadline "deadline" = none) := by
  refine ⟨?_, ?_, ?_, ?_⟩
  · rw [checkFieldOrder_some types pn m hfind]
  · rw [checkFieldOrder_some types pn m hfind]
    simp [hlook]
  · rw [checkFieldOrder_some types pn m hfind]
    exact getKey_of_mem_foldProject _ m []
      (fun q hq => absurd hq (List.not_mem_nil q))
  · intro hany hnone r hok
    rw [signTypedDataJS_eq] at hok
    obtain ⟨hm, _, _, _, _⟩ := finishSign_ok _ _ _ _ _ _ _ hok
    rw [hm, addDeadline_some types pn fields _ _ hfind hlook,
        if_neg (by simp [hany])]
    exact getKey_reconcileValue_none types m "deadline" hnone

/-- A mapping listing an auxiliary type before the root type; the root even
declares a `deadline` field, the auxiliary type does not. -/
def typesAuxFirst : TypesMap :=
  [("Aux", [⟨"inner", "uint256"⟩]),
   ("Root", [⟨"a", "uint256"⟩, ⟨"deadline", "uint256"⟩])]

/-- A message carrying a nested object value. -/
def msgNested : Message :=
  [("inner", JValue.obj [("z", JValue.num 1), ("y", JValue.num 2)])]

def resC10 : SigningResult :=
  { signature := "0xsig", deadline := 3, recoveredAddress := "0xE",
    messageWithDeadline := msgNested, signer := "0xA" }

theorem c10_primary_type_selection_witness :
    (checkFieldOrder typesAuxFirst msgNested).primaryType = some "Aux"
    ∧ (checkFieldOrder typesAuxFirst msgNested).typeOrder = ["inner"]
    ∧ getKey msgNested "inner" =
        some (JValue.obj [("z", JValue.num 1), ("y", JValue.num 2)])
    ∧ getKey resC10.messageWithDeadline "deadline" = none := by
  have h := c10_primary_type_selection stubEthers walletA 0 domTest (some 3)
    typesAuxFirst msgNested "Aux" [⟨"inner", "uint256"⟩] rfl rfl
  refine ⟨h.1, h.2.1, ?_, h.2.2.2 rfl rfl resC10 rfl⟩
  exact h.2.2.1 ("inner", JValue.obj [("z", JValue.num 1), ("y", JValue.num 2)])
    (List.mem_cons_self _ _)

set_option maxHeartbeats 12000000 in
set_option maxRecDepth 100000 in
/-- C4: for the 12-field Order message, encoding `kind`,
`partiallyFillable`, `sellTokenBalance` and `buyTokenBalance` as dynamic
values — each string's 32-byte slot being the Keccak-256 hash of its bytes —
yields a different struct hash and a different final digest than encoding
the same underlying data packed raw as `bytes32`/`bytes1` constants (which
are exactly the hashes of those strings: the first two conjuncts verify
`keccak256("sell")` and `keccak256("erc20")` against the fixed message's
constants).  The encoder distinguishes dynamic-type hashing from fixed-type
raw packing. -/
theorem c4_dynamic_vs_fixed_encoding :
    keccak256 (asciiBytes "sell") =
      hexBytes "0xf3b277728b3fee749481eb3e0b3b48980dbbab78658fc419025cb16eee346775"
    ∧ keccak256 (asciiBytes "erc20") =
      hexBytes "0x5a28e9363bb942b639270062aa6bb295f434bcdfc42c97267bf003f272060dc9"
    ∧ structHashDyn orderMessageAsStrings ≠ structHashFixed recoverTestMessage
    ∧ finalDigest gnosisSeparator (structHashDyn orderMessageAsStrings) ≠
        finalDigest gnosisSeparator (structHashFixed recoverTestMessage) := by
  have h1 : structHashDyn orderMessageAsStrings =
      hexBytes "0xd83344fd2e1f90ef2b8302d13db6a7eb428b95e22c6773882eadc5d8ec235358" := by
    decide
  have h2 : structHashFixed recoverTestMessage =
      hexBytes "0xb7333d306396f9b3242c025e922c86b125ade5173f908aa938538b24a274ebf6" := by
    decide
  have h3 : gnosisSeparator =
      hexBytes "0x03bb976018065c184bf89faff71072a30a6b3905cd8e4728c3d97363877dc18c" := by
    decide
  have h4 : finalDigest
      (hexBytes "0x03bb976018065c184bf89faff71072a30a6b3905cd8e4728c3d97363877dc18c")
      (hexBytes "0xd83344fd2e1f90ef2b8302d13db6a7eb428b95e22c6773882eadc5d8ec235358") =
      hexBytes "0xb8623ca29531e41a14eeadc7df1aa1a3c4fb7f7282aee151be1e8ff574774db7" := by
    decide
  have h5 : finalDigest
      (hexBytes "0x03bb976018065c184bf89faff71072a30a6b3905cd8e4728c3d97363877dc18c")
      (hexBytes "0xb7333d306396f9b3242c025e922c86b125ade5173f908aa938538b24a274ebf6") =
      hexBytes "0xa18873e7be288bf85b4a72e2dad0c5de8d7ca64ae5ffc1de27101a944f0a1a37" := by
    decide
  refine ⟨by decide, by decide, ?_, ?_⟩
  · rw [h1, h2]
    decide
  · rw [h3, h1, h2, h4, h5]
    decide

end EIP712
